import Mathlib

/-!
Verification of the session-composer core of the guitar-practice TUI
(`useSessionEditor`, the Notion store client, the practice timer in
`app.tsx`, and the focus dispatcher).

The TypeScript state and operations are shallowly embedded: React state
updater functions become pure functions on the state they update, the
sequence of remote store calls issued by `saveSession` / `confirmSavePractice`
becomes an explicit trace (`List StoreOp`), JavaScript numbers holding
integral values become `Int`/`Nat`, and decimal minutes become `ℚ`.
JavaScript `null`/`undefined` fields become `Option`.
-/

set_option autoImplicit false

/-- Structure `PracticeLibraryItem` from `notion/types.ts`.  Display-only metadata
fields are carried verbatim (as plain strings/ints); the composer logic only
reads `id` and `name`. -/
structure PracticeLibraryItem where
  id : String
  name : String
  type : Option String := none
  artist : Option String := none
  tags : List String := []
  frequency : List String := []
  current : Bool := false
  lastPracticed : Option String := none
  timesPracticed : Option Int := none
deriving DecidableEq, Repr, Inhabited

/-- Structure `SelectedItem` from `notion/types.ts` (current revision: the one built by
`loadSessionLogs` in `useSessionEditor`, which also carries `actualMinutes`).
`logId = none` models the absent (`undefined`) field: the entry has never
been persisted. -/
structure SelectedItem where
  item : PracticeLibraryItem
  plannedMinutes : Int
  actualMinutes : Option ℚ := none
  logId : Option String := none
deriving DecidableEq, Repr, Inhabited

/-- Structure `PracticeLog` from `notion/types.ts`: a fetched log record. -/
structure PracticeLog where
  id : String
  name : String
  itemId : String
  sessionId : String
  plannedTime : Option Int := none
  actualTime : Option ℚ := none
deriving DecidableEq, Repr, Inhabited

/-- Structure `PracticeSession` from `notion/types.ts`. -/
structure PracticeSession where
  id : String
  name : String
  date : String
deriving DecidableEq, Repr, Inhabited

/-- Argument record of `createPracticeLog`.  The current client (the revision
called by `useSessionEditor`, which passes `order: i` at both call sites)
takes an `order`; spec §6: `createLog(sessionId, itemId, plannedMinutes, order)`. -/
structure NewPracticeLog where
  name : String
  itemId : String
  sessionId : String
  plannedTime : Int
  order : Nat
deriving DecidableEq, Repr

/-- Argument record of `updatePracticeLog` in the current client: the call
sites pass `{ plannedTime?, order? }` (saveSession) and `{ actualTime }`
(confirmSavePractice); spec §6: `updateLog(logId, { plannedMinutes?, order?,
actualMinutes? })`.  An absent field is `none`. -/
structure LogUpdates where
  plannedTime : Option Int := none
  order : Option Nat := none
  actualTime : Option ℚ := none
deriving DecidableEq, Repr

/-- One remote store call, in issue order.  `saveSession` and
`confirmSavePractice` are embedded as functions returning the trace of calls
they issue. -/
inductive StoreOp where
  | createSession (name : String) (date : String)
  | createLog (log : NewPracticeLog)
  | updateLog (logId : String) (updates : LogUpdates)
  | deleteLog (logId : String)
deriving DecidableEq, Repr

/-- JavaScript `x || d` for a nullable number `x`: both `null` and `0` are
falsy and yield the default (`log.plannedTime || 5` in `loadSessionLogs`). -/
def jsOrDefault (x : Option Int) (d : Int) : Int :=
  match x with
  | some v => if v = 0 then d else v
  | none => d

/-- Function `toggleItem` from `useSessionEditor`: remove every entry with the item's
id if one is present, otherwise append a fresh entry with the default
planned duration of 5 and no `logId`. -/
def toggleItem (item : PracticeLibraryItem) (current : List SelectedItem) : List SelectedItem :=
  if current.any (fun s => s.item.id == item.id) then
    current.filter (fun s => s.item.id != item.id)
  else
    current ++ [{ item := item, plannedMinutes := 5 }]

/-- The body of the `for (const log of logs)` loop of `loadSessionLogs`:
resolve the log's catalog item in the library (`library.find`), dropping the
log when it does not resolve, and build a `SelectedItem` carrying
`plannedTime || 5`, `actualTime ?? undefined` and the log's id. -/
def loadItems (logs : List PracticeLog) (library : List PracticeLibraryItem) : List SelectedItem :=
  logs.filterMap (fun log =>
    (library.find? (fun it => it.id == log.itemId)).map (fun libraryItem =>
      { item := libraryItem
        plannedMinutes := jsOrDefault log.plannedTime 5
        actualMinutes := log.actualTime
        logId := some log.id }))

/-- The `useSessionEditor` state touched by `loadSessionLogs`. -/
structure EditorState where
  selectedItems : List SelectedItem := []
  originalItems : List SelectedItem := []
  activeSessionId : Option String := none
  selectedPanelIndex : Nat := 0
deriving Repr

/-- Expression `JSON.parse(JSON.stringify(items))` in `loadSessionLogs`: a deep copy.
On immutable Lean values a deep copy is the value itself (the fields involved
are strings, numbers, lists and absent-or-present fields, all of which the
JSON round-trip preserves); the independence that the copy buys in JS is
aliasing-freedom, which has no counterpart in a pure embedding. -/
def jsonDeepCopy (items : List SelectedItem) : List SelectedItem := items

/-- Function `loadSessionLogs` from `useSessionEditor`, as a state transformer over
the fetched `logs`: replaces the working set, replaces the baseline with a
deep copy of the freshly built list, and resets the selected-panel cursor. -/
def loadSessionLogsState (logs : List PracticeLog) (library : List PracticeLibraryItem)
    (s : EditorState) : EditorState :=
  let items := loadItems logs library
  { s with selectedItems := items, originalItems := jsonDeepCopy items, selectedPanelIndex := 0 }

/-- Function `appendTimeDigit` from `useSessionEditor`: ignore anything that is not a
single decimal digit (`/^[0-9]$/`), and cap the buffer at 3 digits
(max 999 minutes). -/
def appendTimeDigit (digit : String) (v : String) : String :=
  if !(digit.length == 1 && digit.data.all Char.isDigit) then v
  else if v.length ≥ 3 then v
  else v ++ digit

/-- Function `backspaceTimeDigit` from `useSessionEditor`: `v.slice(0, -1)`. -/
def backspaceTimeDigit (v : String) : String := v.dropRight 1

/-- Value of a list of decimal digit characters, most significant first. -/
def parseDigitsVal (cs : List Char) : Nat :=
  cs.foldl (fun a c => a * 10 + (c.toNat - 48)) 0

/-- The digit-reading part of `parseInt`: the value of the longest prefix of
decimal digits with the given sign, `NaN` (`none`) when there is none. -/
def jsParseDigits (cs : List Char) (sign : Int) : Option Int :=
  let ds := cs.takeWhile Char.isDigit
  if ds.isEmpty then none else some (sign * (parseDigitsVal ds : Int))

/-- Function `parseInt(s, 10)`: skip leading spaces, read an optional sign and then
the longest prefix of decimal digits; `NaN` (no digits) is `none`. -/
def jsParseInt10 (s : String) : Option Int :=
  match s.data.dropWhile (fun c => c == ' ') with
  | [] => none
  | c :: rest =>
    if c = '-' then jsParseDigits rest (-1)
    else if c = '+' then jsParseDigits rest 1
    else jsParseDigits (c :: rest) 1

/-- The working-set effect of `confirmTimeEdit` from `useSessionEditor`:
parse the buffer; when it parses and is `≥ 1`, write it as the planned
duration of the entry under the cursor (no-op when the cursor is out of
range).  The function always also clears the buffer and leaves edit mode,
which does not touch the working set and is not modelled here. -/
def confirmTimeEdit (timeInputValue : String) (selectedPanelIndex : Nat)
    (current : List SelectedItem) : List SelectedItem :=
  match jsParseInt10 timeInputValue with
  | some minutes =>
    if minutes ≥ 1 then
      match current.get? selectedPanelIndex with
      | some it => current.set selectedPanelIndex { it with plannedMinutes := minutes }
      | none => current
    else current
  | none => current

/-- The working-set effect of `removeItem` from `useSessionEditor`:
`current.filter((_, i) => i !== index)`. -/
def removeItemItems (index : Nat) (current : List SelectedItem) : List SelectedItem :=
  (go 0 current) where
  go : Nat → List SelectedItem → List SelectedItem
    | _, [] => []
    | i, x :: rest => if i = index then go (i + 1) rest else x :: go (i + 1) rest

/-- The cursor effect of `removeItem`:
`Math.max(0, Math.min(i, selectedItems.length - 2))` (JS arithmetic on a
possibly negative `length - 2`, hence computed in `Int`). -/
def removeItemCursor (len : Nat) (i : Nat) : Nat :=
  (max 0 (min (i : Int) ((len : Int) - 2))).toNat

/-- Direction argument of `moveItem`. -/
inductive MoveDir where
  | up
  | down
deriving DecidableEq, Repr

/-- The working-set effect of `moveItem` from `useSessionEditor`: compute the
neighbor index, bail out when it falls outside the list, otherwise swap the
two entries (the JS destructuring swap reads both positions before writing). -/
def moveItemItems (index : Nat) (direction : MoveDir) (current : List SelectedItem) :
    List SelectedItem :=
  let newIndex : Int := match direction with
    | .up => (index : Int) - 1
    | .down => (index : Int) + 1
  if newIndex < 0 ∨ (current.length : Int) ≤ newIndex then current
  else
    let ni := newIndex.toNat
    (current.set index (current.getD ni default)).set ni (current.getD index default)

/-- The cursor effect of `moveItem`: the cursor follows the moved item, with
the same boundary check against the (pre-move) list length. -/
def moveItemCursor (direction : MoveDir) (len : Nat) (i : Nat) : Nat :=
  let newIndex : Int := match direction with
    | .up => (i : Int) - 1
    | .down => (i : Int) + 1
  if newIndex < 0 ∨ (len : Int) ≤ newIndex then i else newIndex.toNat

/-- Function `moveItem` from `useSessionEditor` acting on (working set, cursor); the
cursor update is issued with the same direction and bound-checks against the
pre-move list length. -/
def moveItem (index : Nat) (direction : MoveDir) (s : List SelectedItem × Nat) :
    List SelectedItem × Nat :=
  (moveItemItems index direction s.1, moveItemCursor direction s.1.length s.2)

/-- JavaScript `Array.prototype.findIndex`: index of the first element
satisfying the predicate, `-1` when there is none. -/
def jsFindIndex {α : Type} (p : α → Bool) : List α → Int
  | [] => -1
  | x :: rest =>
    if p x then 0
    else
      let r := jsFindIndex p rest
      if r < 0 then -1 else r + 1

/-- Expression `selectedItems.filter((i) => i.logId).map((i) => i.logId)` in
`saveSession`: the persisted-log references of the working set (the `Set`
built from them is modelled by list membership). -/
def currentLogIds (selectedItems : List SelectedItem) : List String :=
  selectedItems.filterMap (fun i => i.logId)

/-- The delete loop of `saveSession` (edit mode): one `deletePracticeLog`
call for every baseline entry whose `logId` is present and no longer among
the working set's persisted-log references. -/
def deleteOps (selectedItems originalItems : List SelectedItem) : List StoreOp :=
  originalItems.filterMap (fun orig =>
    match orig.logId with
    | some lid => if lid ∈ currentLogIds selectedItems then none else some (.deleteLog lid)
    | none => none)

/-- One iteration of the update/create loop of `saveSession` (edit mode) at
position `i`: an entry carrying a `logId` is compared with the baseline entry
found by `originalItems.findIndex`; an update is issued only when the planned
duration or the position changed, carrying exactly the changed fields.  An
entry with no `logId` is created with its position as `order`. -/
def upsertOp (sessionId : String) (originalItems : List SelectedItem) (i : Nat)
    (item : SelectedItem) : List StoreOp :=
  match item.logId with
  | some lid =>
    let originalIndex : Int := jsFindIndex (fun o => o.logId == some lid) originalItems
    let original : Option SelectedItem :=
      if originalIndex < 0 then none else originalItems.get? originalIndex.toNat
    let timeChanged : Bool :=
      match original with
      | some o => o.plannedMinutes != item.plannedMinutes
      | none => false
    let orderChanged : Bool := originalIndex != (i : Int)
    if timeChanged || orderChanged then
      [.updateLog lid
        { plannedTime := if timeChanged then some item.plannedMinutes else none
          order := if orderChanged then some i else none }]
    else []
  | none =>
    [.createLog
      { name := item.item.name
        itemId := item.item.id
        sessionId := sessionId
        plannedTime := item.plannedMinutes
        order := i }]

/-- The `for (let i = 0; i < selectedItems.length; i++)` loop of
`saveSession` (edit mode), started at index `n`. -/
def upsertOpsAux (sessionId : String) (originalItems : List SelectedItem) (n : Nat) :
    List SelectedItem → List StoreOp
  | [] => []
  | item :: rest =>
    upsertOp sessionId originalItems n item ++ upsertOpsAux sessionId originalItems (n + 1) rest

/-- The store-call trace of `saveSession`'s edit mode: all deletes of removed
baseline entries, then the update/create loop over the working set. -/
def editSaveTrace (sessionId : String) (selectedItems originalItems : List SelectedItem) :
    List StoreOp :=
  deleteOps selectedItems originalItems ++ upsertOpsAux sessionId originalItems 0 selectedItems

/-- The log-creation loop of `createFullSession`, started at position `n`. -/
def createLogsAux (sessionId : String) (n : Nat) : List SelectedItem → List StoreOp
  | [] => []
  | item :: rest =>
    .createLog
      { name := item.item.name
        itemId := item.item.id
        sessionId := sessionId
        plannedTime := item.plannedMinutes
        order := n } :: createLogsAux sessionId (n + 1) rest

/-- Modelled from the spec: the current `createFullSession` of
`notion/client.ts` is not in the snapshot — the visible `client.ts` is an
earlier revision from before the Order property existed (its
`createPracticeLog` takes no `order` and its `updatePracticeLog` takes a
plain number, neither of which typechecks against the current call sites in
`useSessionEditor` and `app.tsx`).  Per spec §4.2 step 1 and §6
(`createLog(sessionId, itemId, plannedMinutes, order)`), it creates the
session first and then one log per item in working-set order, each carrying
an `order` equal to its position.  `newSessionId` stands for the id the
store mints for the created session. -/
def createFullSessionTrace (newSessionId : String) (name date : String)
    (items : List SelectedItem) : List StoreOp :=
  .createSession name date :: createLogsAux newSessionId 0 items

/-- The store-call trace of `saveSession` from `useSessionEditor`: the guard
returns immediately when the working set is empty and there is no active
session; edit mode runs the delta algorithm against the baseline; create
mode creates a full session named `"Practice"` dated `today`. -/
def saveSessionTrace (activeSessionId : Option String) (newSessionId today : String)
    (selectedItems originalItems : List SelectedItem) : List StoreOp :=
  if selectedItems.length = 0 ∧ activeSessionId = none then []
  else
    match activeSessionId with
    | some sid => editSaveTrace sid selectedItems originalItems
    | none => createFullSessionTrace newSessionId "Practice" today selectedItems

/-- Structure `PracticeState` from `types.ts`: the in-memory timer session.
Timestamps are wall-clock milliseconds (`Date.now()`); `accumulatedMs` is
rational because `startPractice` seeds it from decimal minutes. -/
structure PracticeState where
  itemIndex : Nat
  startTime : Int
  accumulatedMs : ℚ
  isPaused : Bool
  isConfirming : Bool
deriving DecidableEq, Repr

/-- Function `startPractice` from `app.tsx`: seed the accumulated duration from the
item's prior actual minutes when present and non-zero
(`item?.actualMinutes ? item.actualMinutes * 60 * 1000 : 0`, where both a
missing item and `0` minutes are falsy), stamp `now`, start running. -/
def startPractice (selectedItems : List SelectedItem) (itemIndex : Nat) (now : Int) :
    PracticeState :=
  let existingMs : ℚ :=
    match selectedItems.get? itemIndex with
    | some it =>
      match it.actualMinutes with
      | some m => if m = 0 then 0 else m * 60 * 1000
      | none => 0
    | none => 0
  { itemIndex := itemIndex
    startTime := now
    accumulatedMs := existingMs
    isPaused := false
    isConfirming := false }

/-- Function `togglePausePractice` from `app.tsx`: when running, fold
`now - startTime` into the accumulated duration and pause; when paused,
restamp `now` and resume; no-op when there is no timer session. -/
def togglePausePractice (now : Int) : Option PracticeState → Option PracticeState
  | none => none
  | some ps =>
    if ps.isPaused then
      some { ps with startTime := now, isPaused := false }
    else
      some { ps with accumulatedMs := ps.accumulatedMs + ((now - ps.startTime : Int) : ℚ),
                     isPaused := true }

/-- Outcome of `confirmSavePractice`: the store calls issued, the timer
session afterwards, and whether the active session's logs were reloaded. -/
structure ConfirmResult where
  ops : List StoreOp
  practiceState : Option PracticeState
  reloaded : Bool
deriving DecidableEq, Repr

/-- The outcome of `cancelPractice` from `app.tsx`: drop the timer session,
issue nothing. -/
def cancelPracticeResult : ConfirmResult :=
  { ops := [], practiceState := none, reloaded := false }

/-- Function `confirmSavePractice` from `app.tsx`: without a timer session, nothing
happens; when the timed item is missing or carries no `logId`, it behaves as
`cancelPractice`; otherwise it issues exactly one `updatePracticeLog` call
writing `accumulatedMs / 60000` decimal minutes as the actual time, reloads
the active session's logs when there is one, and drops the timer session. -/
def confirmSavePractice (selectedItems : List SelectedItem) (activeSessionId : Option String) :
    Option PracticeState → ConfirmResult
  | none => { ops := [], practiceState := none, reloaded := false }
  | some ps =>
    match (selectedItems.get? ps.itemIndex).bind (fun it => it.logId) with
    | none => cancelPracticeResult
    | some lid =>
      { ops := [.updateLog lid { actualTime := some (ps.accumulatedMs / 60000) }]
        practiceState := none
        reloaded := activeSessionId.isSome }

/-- Type `FocusArea` from `types.ts` (current revision). -/
inductive FocusArea where
  | list
  | search
  | sessionPicker
  | selected
deriving DecidableEq, Repr

/-- Structure `KeyEvent` from `types.ts`. -/
structure KeyEvent where
  name : String
  ctrl : Bool := false
  shift : Bool := false
deriving DecidableEq, Repr

/-- Focus effect of `createLibraryKeyHandler` (`LibraryPane.tsx`): only the
`/` key changes focus (to the search input). -/
def libraryKeyFocus (key : KeyEvent) (f : FocusArea) : FocusArea :=
  if key.name == "/" then .search else f

/-- Focus effect of `createSearchKeyHandler` (`LibraryPane.tsx`): none — the
handler only clears the query on Ctrl+w and consumes nothing else. -/
def searchKeyFocus (_key : KeyEvent) (f : FocusArea) : FocusArea := f

/-- Focus effect of `createSessionPickerKeyHandler` (`SessionPicker.tsx`):
select (`space`/`return`) and `escape` call `onClose`, which returns focus to
the list pane. -/
def sessionPickerKeyFocus (key : KeyEvent) (f : FocusArea) : FocusArea :=
  match key.name with
  | "space" => .list
  | "return" => .list
  | "escape" => .list
  | _ => f

/-- Focus effect of `createSelectedKeyHandler` (`SelectedPane.tsx`): none. -/
def selectedKeyFocus (_key : KeyEvent) (f : FocusArea) : FocusArea := f

/-- The focus transition computed by the `useKeyboard` dispatcher of the
current `App` (`app.tsx`) for one key event while in the `browse` state:
global overrides in source order (Tab pane-cycle, Escape, `e` opens the
session picker, `s` save, `r` refresh, Ctrl+h/l/k/j pane jumps), then
delegation to the focused pane's handler.  `hasSelected` is
`selectedItems.length > 0`. -/
def browseFocusAfterKey (key : KeyEvent) (f : FocusArea) (hasSelected : Bool) : FocusArea :=
  if key.name == "tab" && !(f == .sessionPicker) then
    match f with
    | .list => if hasSelected then .selected else .search
    | .selected => .search
    | _ => .list
  else if key.name == "escape" && f == .sessionPicker then .list
  else if key.name == "escape" && !(f == .search) then .list
  else if key.name == "e" && !(f == .search) && !(f == .sessionPicker) then .sessionPicker
  else if key.name == "s" && !(f == .search) && !(f == .sessionPicker) then f
  else if key.name == "r" && !(f == .search) && !(f == .sessionPicker) then f
  else if key.ctrl && key.name == "h" && !(f == .sessionPicker) then
    (if f == .selected then .list else f)
  else if key.ctrl && key.name == "l" && !(f == .sessionPicker) then
    (if (f == .list || f == .search) && hasSelected then .selected else f)
  else if key.ctrl && key.name == "k" && !(f == .sessionPicker) then .search
  else if key.ctrl && key.name == "j" && f == .search then .list
  else
    match f with
    | .list => libraryKeyFocus key f
    | .search => searchKeyFocus key f
    | .sessionPicker => sessionPickerKeyFocus key f
    | .selected => selectedKeyFocus key f

-- Sanity checks of the embedding on concrete values.
example : jsOrDefault (some 0) 5 = 5 := rfl
example : jsOrDefault (some 3) 5 = 3 := rfl
example : jsOrDefault none 5 = 5 := rfl
example :
    appendTimeDigit "0" (appendTimeDigit "0" (appendTimeDigit "0" (appendTimeDigit "1" ""))) =
      "100" := by decide
example : jsParseInt10 "100" = some 100 := by decide
example : jsParseInt10 "" = none := by decide

/-- Trace observer: is this op a session creation? -/
def isCreateSession : StoreOp → Bool
  | .createSession _ _ => true
  | _ => false

/-- Trace observer: the payload of a log-creation op. -/
def asCreateLog : StoreOp → Option NewPracticeLog
  | .createLog l => some l
  | _ => none

/-- Trace observer: is this op a delete of the given log id? -/
def isDeleteFor (lid : String) : StoreOp → Bool
  | .deleteLog l => l == lid
  | _ => false

/-- Trace observer: does this op reference the given working-set entry —
a delete or update of its persisted log, or a create of its catalog item? -/
def callsFor (e : SelectedItem) : StoreOp → Bool
  | .createSession _ _ => false
  | .createLog nl => nl.itemId == e.item.id
  | .updateLog lid _ => e.logId == some lid
  | .deleteLog lid => e.logId == some lid

/-- Concrete catalog fixture used by witnesses. -/
def itemA : PracticeLibraryItem := { id := "item-a", name := "Item A" }

/-- Concrete catalog fixture used by witnesses. -/
def itemB : PracticeLibraryItem := { id := "item-b", name := "Item B" }

/-! ## C10: double toggle -/

/-- C10 counterexample: the claim asserts that when an entry with the item's
id is present, toggling twice "does not restore the original entry".  On the
working set `[{item := itemA, plannedMinutes := 5}]` — an entry with itemA's
id, default duration, no actual time and no log reference, sitting at the
end — the double `toggleItem` restores the working set exactly. -/
theorem c10_counterexample :
    (∃ e ∈ [{ item := itemA, plannedMinutes := 5 : SelectedItem }], e.item.id = itemA.id) ∧
      toggleItem itemA (toggleItem itemA [{ item := itemA, plannedMinutes := 5 }]) =
        [{ item := itemA, plannedMinutes := 5 }] := by
  constructor
  · exact ⟨_, List.mem_singleton_self _, rfl⟩
  · decide

/-- C10 (amended): toggling an absent item twice restores the working set
exactly; toggling a present item twice removes every entry with that id and
appends one fresh entry at the end with planned duration 5, no actual time
and no persisted-log reference — the removed entry's prior position, planned
duration and log reference are discarded (so the result coincides with the
original only in the degenerate case where the entry already was that fresh
entry at the end). -/
theorem c10_toggle_twice :
    (∀ (x : PracticeLibraryItem) (W : List SelectedItem),
      (∀ e ∈ W, e.item.id ≠ x.id) → toggleItem x (toggleItem x W) = W) ∧
    (∀ (x : PracticeLibraryItem) (W : List SelectedItem),
      (∃ e ∈ W, e.item.id = x.id) →
      toggleItem x (toggleItem x W) =
        W.filter (fun s => s.item.id != x.id) ++ [{ item := x, plannedMinutes := 5 }]) := by
  constructor
  · intro x W h
    have hany : W.any (fun s => s.item.id == x.id) = false := by
      simp only [List.any_eq_false]
      intro e he
      simpa using h e he
    have h1 : toggleItem x W = W ++ [{ item := x, plannedMinutes := 5 }] := by
      simp [toggleItem, hany]
    rw [h1]
    have hany2 : (W ++ [{ item := x, plannedMinutes := 5 : SelectedItem }]).any
        (fun s => s.item.id == x.id) = true := by
      simp
    simp only [toggleItem, hany2, if_true]
    rw [List.filter_append]
    have hW : W.filter (fun s => s.item.id != x.id) = W :=
      List.filter_eq_self.mpr (fun e he => by simpa using h e he)
    have hx : ([{ item := x, plannedMinutes := 5 : SelectedItem }].filter
        (fun s => s.item.id != x.id)) = [] := by simp
    rw [hW, hx, List.append_nil]
  · intro x W h
    obtain ⟨e, he, hid⟩ := h
    have hany : W.any (fun s => s.item.id == x.id) = true := by
      simp only [List.any_eq_true]
      exact ⟨e, he, by simpa using hid⟩
    have h1 : toggleItem x W = W.filter (fun s => s.item.id != x.id) := by
      simp [toggleItem, hany]
    rw [h1]
    have hany2 : (W.filter (fun s => s.item.id != x.id)).any
        (fun s => s.item.id == x.id) = false := by
      simp only [List.any_eq_false]
      intro a ha
      have := List.of_mem_filter ha
      simpa using this
    simp [toggleItem, hany2]

/-- C10 witness: the amended characterization applied to concrete working
sets — itemB is absent from `[entry of itemA]`, so double-toggling itemB
restores the list; itemA is present with planned duration 7 and log "l1", so
double-toggling itemA discards that entry and appends a fresh default one. -/
theorem c10_witness :
    toggleItem itemB (toggleItem itemB [{ item := itemA, plannedMinutes := 7, logId := some "l1" }]) = [{ item := itemA, plannedMinutes := 7, logId := some "l1" }] ∧
    toggleItem itemA (toggleItem itemA [{ item := itemA, plannedMinutes := 7, logId := some "l1" }]) = [{ item := itemA, plannedMinutes := 5 }] := by
  constructor
  · exact c10_toggle_twice.1 itemB _ (by decide)
  · have h := c10_toggle_twice.2 itemA [{ item := itemA, plannedMinutes := 7, logId := some "l1" }] ⟨_, List.mem_singleton_self _, rfl⟩
    rw [h]
    decide

/-! ## C7: exact duration entry -/

theorem char_toNat_of_isDigit (c : Char) (h : c.isDigit = true) :
    48 ≤ c.toNat ∧ c.toNat ≤ 57 := by
  revert h
  simp only [Char.isDigit, Bool.and_eq_true, decide_eq_true_eq]
  intro h
  exact ⟨h.1, h.2⟩

theorem parseDigitsVal_foldl_lt :
    ∀ (cs : List Char), (∀ c ∈ cs, c.isDigit = true) → ∀ acc : Nat,
      cs.foldl (fun a c => a * 10 + (c.toNat - 48)) acc < (acc + 1) * 10 ^ cs.length := by
  intro cs
  induction cs with
  | nil => intro _ acc; simp
  | cons c rest ih =>
    intro h acc
    have hc : c.toNat - 48 ≤ 9 := by
      have := char_toNat_of_isDigit c (h c (List.mem_cons_self _ _))
      omega
    have hrec := ih (fun x hx => h x (List.mem_cons_of_mem _ hx)) (acc * 10 + (c.toNat - 48))
    simp only [List.foldl_cons, List.length_cons]
    calc List.foldl (fun a c => a * 10 + (c.toNat - 48)) (acc * 10 + (c.toNat - 48)) rest
        < (acc * 10 + (c.toNat - 48) + 1) * 10 ^ rest.length := hrec
      _ ≤ (acc + 1) * 10 ^ (rest.length + 1) := by
          have : acc * 10 + (c.toNat - 48) + 1 ≤ (acc + 1) * 10 := by omega
          calc (acc * 10 + (c.toNat - 48) + 1) * 10 ^ rest.length
              ≤ ((acc + 1) * 10) * 10 ^ rest.length := Nat.mul_le_mul_right _ this
            _ = (acc + 1) * 10 ^ (rest.length + 1) := by ring

theorem parseDigitsVal_lt (cs : List Char) (h : ∀ c ∈ cs, c.isDigit = true) :
    parseDigitsVal cs < 10 ^ cs.length := by
  have := parseDigitsVal_foldl_lt cs h 0
  simpa [parseDigitsVal] using this

/-- C7 counterexample: the claim asserts that entering the digits 1, 0, 0, 0
and confirming is rejected and leaves the prior planned duration unchanged.
In the code, `appendTimeDigit` silently drops the fourth digit (3-digit
buffer cap), so the buffer reads "100", and `confirmTimeEdit` then sets the
planned duration to 100 — here changing the prior value 5. -/
theorem c7_counterexample :
    confirmTimeEdit
        (appendTimeDigit "0" (appendTimeDigit "0" (appendTimeDigit "0" (appendTimeDigit "1" ""))))
        0 [{ item := itemA, plannedMinutes := 5 }]
      = [{ item := itemA, plannedMinutes := 100 }] ∧ (100 : Int) ≠ 5 := by
  constructor
  · decide
  · decide

/-- C7 (amended): entering the digits 1, 0, 0, 0 via the input path leaves
the buffer at "100" (the cap drops the fourth digit during entry rather than
rejecting at confirm), and confirming sets the planned duration to the
parsed value.  `confirmTimeEdit` writes any parsed value `≥ 1` to the entry
under the cursor and leaves the working set unchanged on non-numeric or
`< 1` input; the 999 upper bound is enforced by the input path alone: a
digit-only buffer of at most 3 digits (an invariant `appendTimeDigit`
preserves from the empty buffer) always parses to at most 999. -/
theorem c7_time_edit :
    (appendTimeDigit "0" (appendTimeDigit "0" (appendTimeDigit "0" (appendTimeDigit "1" ""))) =
        "100")
    ∧ (∀ (v : String) (idx : Nat) (ws : List SelectedItem) (m : Int) (it : SelectedItem),
        jsParseInt10 v = some m → 1 ≤ m → ws.get? idx = some it →
        confirmTimeEdit v idx ws = ws.set idx { it with plannedMinutes := m })
    ∧ (∀ (v : String) (idx : Nat) (ws : List SelectedItem),
        jsParseInt10 v = none → confirmTimeEdit v idx ws = ws)
    ∧ (∀ (v : String) (idx : Nat) (ws : List SelectedItem) (m : Int),
        jsParseInt10 v = some m → m < 1 → confirmTimeEdit v idx ws = ws)
    ∧ (∀ (d v : String), v.data.all Char.isDigit = true → v.length ≤ 3 →
        (appendTimeDigit d v).data.all Char.isDigit = true ∧ (appendTimeDigit d v).length ≤ 3)
    ∧ (∀ (v : String) (m : Int), v.data.all Char.isDigit = true → v.length ≤ 3 →
        jsParseInt10 v = some m → m ≤ 999) := by
  refine ⟨by decide, ?_, ?_, ?_, ?_, ?_⟩
  · intro v idx ws m it hparse hm hget
    have hget2 : ws[idx]? = some it := by
      rw [← List.get?_eq_getElem?]
      exact hget
    simp [confirmTimeEdit, hparse, hm, hget2]
  · intro v idx ws h
    simp [confirmTimeEdit, h]
  · intro v idx ws m hparse hm
    simp [confirmTimeEdit, hparse, show ¬(1 ≤ m) by omega]
  · intro d v hdig hlen
    by_cases hd : (d.length == 1 && d.data.all Char.isDigit) = true
    · have hd2 : d.length = 1 ∧ d.data.all Char.isDigit = true := by simpa using hd
      by_cases hv : v.length ≥ 3
      · have happ : appendTimeDigit d v = v := by simp [appendTimeDigit, hd, hv]
        rw [happ]
        exact ⟨hdig, hlen⟩
      · have happ : appendTimeDigit d v = v ++ d := by simp [appendTimeDigit, hd, hv]
        rw [happ]
        constructor
        · rw [String.data_append, List.all_append, hdig, hd2.2]
          rfl
        · rw [String.length_append, hd2.1]
          omega
    · have happ : appendTimeDigit d v = v := by simp [appendTimeDigit, hd]
      rw [happ]
      exact ⟨hdig, hlen⟩
  · intro v m hdig hlen hparse
    rcases hv : v.data with _ | ⟨c, rest⟩
    · rw [jsParseInt10, hv] at hparse
      simp at hparse
    · have hall : ∀ x ∈ v.data, x.isDigit = true := by
        intro x hx
        exact List.all_eq_true.mp hdig x hx
      have hcdig : c.isDigit = true := hall c (by rw [hv]; exact List.mem_cons_self _ _)
      have hcspace : (c == ' ') = false := by
        simp only [beq_eq_false_iff_ne]
        intro heq
        rw [heq] at hcdig
        exact absurd hcdig (by decide)
      have hcminus : ¬(c = '-') := by
        intro heq
        rw [heq] at hcdig
        exact absurd hcdig (by decide)
      have hcplus : ¬(c = '+') := by
        intro heq
        rw [heq] at hcdig
        exact absurd hcdig (by decide)
      have htake : (c :: rest).takeWhile Char.isDigit = c :: rest := by
        apply List.takeWhile_eq_self_iff.mpr
        intro x hx
        exact hall x (by rw [hv]; exact hx)
      have hred : jsParseInt10 v = some ((1 : Int) * (parseDigitsVal (c :: rest) : Int)) := by
        rw [jsParseInt10, hv, List.dropWhile_cons]
        simp only [hcspace, Bool.false_eq_true, if_false]
        rw [if_neg hcminus, if_neg hcplus, jsParseDigits]
        simp only [htake]
        rw [if_neg (by simp)]
      rw [hred] at hparse
      have hval : parseDigitsVal (c :: rest) < 10 ^ (c :: rest).length := by
        apply parseDigitsVal_lt
        intro x hx
        exact hall x (by rw [hv]; exact hx)
      have hlen2 : (c :: rest).length ≤ 3 := by
        rw [← hv]
        exact hlen
      have hbound : parseDigitsVal (c :: rest) ≤ 999 := by
        have h10 : (10 : Nat) ^ (c :: rest).length ≤ 10 ^ 3 :=
          Nat.pow_le_pow_right (by omega) hlen2
        simp only [pow_succ, pow_zero] at h10
        omega
      have hm2 : m = (parseDigitsVal (c :: rest) : Int) := by
        have h1 := Option.some.inj hparse
        omega
      rw [hm2]
      exact_mod_cast hbound

/-- C7 witness: the amended behavior at concrete inputs — "42" confirms to
42; the non-numeric buffer "x" leaves the working set unchanged; the
digit-path bound applied to the buffer "7". -/
theorem c7_witness :
    confirmTimeEdit "42" 0 [{ item := itemA, plannedMinutes := 5 }] = [{ item := itemA, plannedMinutes := 42 }]
    ∧ confirmTimeEdit "x" 0 [{ item := itemA, plannedMinutes := 5 }] = [{ item := itemA, plannedMinutes := 5 }]
    ∧ (7 : Int) ≤ 999 := by
  refine ⟨?_, ?_, ?_⟩
  · have h := c7_time_edit.2.1 "42" 0 [{ item := itemA, plannedMinutes := 5 }] 42
      ({ item := itemA, plannedMinutes := 5 }) (by decide) (by decide) (by decide)
    rw [h]
    decide
  · exact c7_time_edit.2.2.1 "x" 0 [{ item := itemA, plannedMinutes := 5 }] (by decide)
  · exact c7_time_edit.2.2.2.2.2 "7" 7 (by decide) (by decide) (by decide)

/-! ## C8: moveItem -/

/-- C8: `moveItem` invoked on the cursor position (as the selected pane
does): it is a no-op on both working set and cursor at index 0 moving up and
at the last index moving down; in the interior it swaps exactly the entries
at the index and its neighbor in the given direction, preserves the length
and all other entries, and moves the cursor to the item's new position. -/
theorem c8_moveItem :
    (∀ ws : List SelectedItem, moveItem 0 MoveDir.up (ws, 0) = (ws, 0))
    ∧ (∀ (ws : List SelectedItem) (i : Nat), i + 1 = ws.length →
        moveItem i MoveDir.down (ws, i) = (ws, i))
    ∧ (∀ (ws : List SelectedItem) (i : Nat), 1 ≤ i → i < ws.length →
        (moveItemItems i MoveDir.up ws).length = ws.length
        ∧ (moveItemItems i MoveDir.up ws).get? (i - 1) = ws.get? i
        ∧ (moveItemItems i MoveDir.up ws).get? i = ws.get? (i - 1)
        ∧ (∀ k, k ≠ i → k ≠ i - 1 → (moveItemItems i MoveDir.up ws).get? k = ws.get? k)
        ∧ moveItemCursor MoveDir.up ws.length i = i - 1)
    ∧ (∀ (ws : List SelectedItem) (i : Nat), i + 1 < ws.length →
        (moveItemItems i MoveDir.down ws).length = ws.length
        ∧ (moveItemItems i MoveDir.down ws).get? (i + 1) = ws.get? i
        ∧ (moveItemItems i MoveDir.down ws).get? i = ws.get? (i + 1)
        ∧ (∀ k, k ≠ i → k ≠ i + 1 → (moveItemItems i MoveDir.down ws).get? k = ws.get? k)
        ∧ moveItemCursor MoveDir.down ws.length i = i + 1) := by
  refine ⟨?_, ?_, ?_, ?_⟩
  · intro ws
    simp [moveItem, moveItemItems, moveItemCursor]
  · intro ws i h
    have hcond : ((ws.length : Int) ≤ (i : Int) + 1) := by omega
    simp [moveItem, moveItemItems, moveItemCursor, hcond]
  · intro ws i h1 hlen
    have hni : (((i : Int) - 1).toNat) = i - 1 := by omega
    have hcond : ¬((i : Int) - 1 < 0 ∨ (ws.length : Int) ≤ (i : Int) - 1) := by omega
    have hitems : moveItemItems i MoveDir.up ws =
        (ws.set i (ws.getD (i - 1) default)).set (i - 1) (ws.getD i default) := by
      rw [moveItemItems]
      simp only [if_neg hcond, hni]
    obtain ⟨a, ha⟩ : ∃ a, ws.get? i = some a := by
      cases hx : ws.get? i with
      | none => exact absurd (List.get?_eq_none.mp hx) (by omega)
      | some a => exact ⟨a, rfl⟩
    obtain ⟨b, hb⟩ : ∃ b, ws.get? (i - 1) = some b := by
      cases hx : ws.get? (i - 1) with
      | none => exact absurd (List.get?_eq_none.mp hx) (by omega)
      | some b => exact ⟨b, rfl⟩
    have hgda : ws.getD i default = a := by
      rw [List.getD_eq_getD_get?, ha]
      rfl
    have hgdb : ws.getD (i - 1) default = b := by
      rw [List.getD_eq_getD_get?, hb]
      rfl
    have hne : i - 1 ≠ i := by omega
    refine ⟨?_, ?_, ?_, ?_, ?_⟩
    · rw [hitems]
      simp
    · rw [hitems, List.get?_set_eq_of_lt, hgda, ha]
      simp only [List.length_set]
      omega
    · rw [hitems, List.get?_set_ne _ _ hne, List.get?_set_eq_of_lt _ hlen, hgdb, hb]
    · intro k hk hk1
      rw [hitems, List.get?_set_ne _ _ (by omega), List.get?_set_ne _ _ (by omega)]
    · rw [moveItemCursor]
      simp only [if_neg hcond]
      omega
  · intro ws i hlen
    have hni : (((i : Int) + 1).toNat) = i + 1 := by omega
    have hcond : ¬((i : Int) + 1 < 0 ∨ (ws.length : Int) ≤ (i : Int) + 1) := by omega
    have hitems : moveItemItems i MoveDir.down ws =
        (ws.set i (ws.getD (i + 1) default)).set (i + 1) (ws.getD i default) := by
      rw [moveItemItems]
      simp only [if_neg hcond, hni]
    obtain ⟨a, ha⟩ : ∃ a, ws.get? i = some a := by
      cases hx : ws.get? i with
      | none => exact absurd (List.get?_eq_none.mp hx) (by omega)
      | some a => exact ⟨a, rfl⟩
    obtain ⟨b, hb⟩ : ∃ b, ws.get? (i + 1) = some b := by
      cases hx : ws.get? (i + 1) with
      | none => exact absurd (List.get?_eq_none.mp hx) (by omega)
      | some b => exact ⟨b, rfl⟩
    have hgda : ws.getD i default = a := by
      rw [List.getD_eq_getD_get?, ha]
      rfl
    have hgdb : ws.getD (i + 1) default = b := by
      rw [List.getD_eq_getD_get?, hb]
      rfl
    have hne : i + 1 ≠ i := by omega
    refine ⟨?_, ?_, ?_, ?_, ?_⟩
    · rw [hitems]
      simp
    · rw [hitems, List.get?_set_eq_of_lt, hgda, ha]
      simp only [List.length_set]
      omega
    · rw [hitems, List.get?_set_ne _ _ hne, List.get?_set_eq_of_lt _ (by omega), hgdb, hb]
    · intro k hk hk1
      rw [hitems, List.get?_set_ne _ _ (by omega), List.get?_set_ne _ _ (by omega)]
    · rw [moveItemCursor]
      simp only [if_neg hcond]
      omega

/-- C8 witness: `moveItem` at concrete inputs — moving index 1 up in a
two-entry list swaps the entries and the cursor follows to 0; moving index 1
down at the end of the same list changes nothing. -/
theorem c8_witness :
    (moveItemItems 1 MoveDir.up [{ item := itemA, plannedMinutes := 5 }, { item := itemB, plannedMinutes := 7 }]).get? 0 = some { item := itemB, plannedMinutes := 7 }
    ∧ moveItemCursor MoveDir.up 2 1 = 0
    ∧ moveItem 1 MoveDir.down ([{ item := itemA, plannedMinutes := 5 }, { item := itemB, plannedMinutes := 7 }], 1) = ([{ item := itemA, plannedMinutes := 5 }, { item := itemB, plannedMinutes := 7 }], 1) := by
  have h := c8_moveItem.2.2.1 [{ item := itemA, plannedMinutes := 5 }, { item := itemB, plannedMinutes := 7 }] 1 (by decide) (by decide)
  refine ⟨?_, ?_, ?_⟩
  · rw [show (0 : Nat) = 1 - 1 from rfl, h.2.1]
    decide
  · exact h.2.2.2.2
  · exact c8_moveItem.2.1 [{ item := itemA, plannedMinutes := 5 }, { item := itemB, plannedMinutes := 7 }] 1 (by decide)

/-! ## C9: escape handling in the focus dispatcher -/

/-- C9: the browse-state dispatcher on an escape key event.  From
`sessionPicker`, `selected` and `list` the resulting focus is the list
(catalog) pane, as the claim states.  From `search`, however, the dispatcher
deliberately skips the global escape branch (`focusArea !== "search"`) and
delegates to the search pane handler — which only handles Ctrl+w — so the
focus stays `search`: the event is dropped and search edit mode is not
exited, contradicting the claim (and the code's own hint string
`SEARCH_HINTS = "[Enter] Done [Esc] Exit [Ctrl+w] Clear"`). -/
theorem c9_escape_focus :
    browseFocusAfterKey { name := "escape" } FocusArea.sessionPicker true = FocusArea.list
    ∧ browseFocusAfterKey { name := "escape" } FocusArea.selected true = FocusArea.list
    ∧ browseFocusAfterKey { name := "escape" } FocusArea.list true = FocusArea.list
    ∧ browseFocusAfterKey { name := "escape" } FocusArea.sessionPicker false = FocusArea.list
    ∧ browseFocusAfterKey { name := "escape" } FocusArea.selected false = FocusArea.list
    ∧ browseFocusAfterKey { name := "escape" } FocusArea.list false = FocusArea.list
    ∧ browseFocusAfterKey { name := "escape" } FocusArea.search true = FocusArea.search
    ∧ browseFocusAfterKey { name := "escape" } FocusArea.search false = FocusArea.search
    ∧ FocusArea.search ≠ FocusArea.list := by
  refine ⟨rfl, rfl, rfl, rfl, rfl, rfl, rfl, rfl, by decide⟩

/-! ## C2: brand-new session save -/

theorem countP_isCreateSession_createLogsAux (sid : String) :
    ∀ (items : List SelectedItem) (n : Nat),
      (createLogsAux sid n items).countP (fun op => isCreateSession op) = 0 := by
  intro items
  induction items with
  | nil => intro n; simp [createLogsAux]
  | cons x rest ih =>
    intro n
    show (StoreOp.createLog _ :: createLogsAux sid (n + 1) rest).countP
        (fun op => isCreateSession op) = 0
    rw [List.countP_cons, ih (n + 1)]
    simp [isCreateSession]

theorem length_filterMap_createLogsAux (sid : String) :
    ∀ (items : List SelectedItem) (n : Nat),
      ((createLogsAux sid n items).filterMap asCreateLog).length = items.length := by
  intro items
  induction items with
  | nil => intro n; simp [createLogsAux]
  | cons x rest ih =>
    intro n
    simp [createLogsAux, List.filterMap_cons, asCreateLog, ih (n + 1)]

theorem get?_filterMap_createLogsAux (sid : String) :
    ∀ (items : List SelectedItem) (n k : Nat) (it : SelectedItem), items.get? k = some it →
      ((createLogsAux sid n items).filterMap asCreateLog).get? k
        = some { name := it.item.name, itemId := it.item.id, sessionId := sid,
                 plannedTime := it.plannedMinutes, order := n + k } := by
  intro items
  induction items with
  | nil => intro n k it h; simp at h
  | cons x rest ih =>
    intro n k it h
    cases k with
    | zero =>
      simp only [List.get?] at h
      cases h
      simp [createLogsAux, List.filterMap_cons, asCreateLog]
    | succ kk =>
      simp only [List.get?] at h
      have := ih (n + 1) kk it h
      simp only [createLogsAux, List.filterMap_cons, asCreateLog, List.get?]
      rw [this]
      congr 2
      omega

theorem length_createLogsAux (sid : String) :
    ∀ (items : List SelectedItem) (n : Nat),
      (createLogsAux sid n items).length = items.length := by
  intro items
  induction items with
  | nil => intro n; simp [createLogsAux]
  | cons x rest ih =>
    intro n
    simp [createLogsAux, ih (n + 1)]

theorem saveSessionTrace_none (nid today : String) (ws orig : List SelectedItem)
    (h : ws ≠ []) :
    saveSessionTrace none nid today ws orig
      = StoreOp.createSession "Practice" today :: createLogsAux nid 0 ws := by
  rw [saveSessionTrace, if_neg]
  · rfl
  · intro hcon
    exact h (List.length_eq_zero.mp hcon.1)

/-- C2: for a non-empty working set with no active session, the save trace
is one session creation followed by exactly one log creation per working-set
entry, in working-set order, each carrying its position `0..n-1` as the
order field (and nothing else: the trace has length `n + 1`). -/
theorem c2_create_mode (nid today : String) (ws orig : List SelectedItem) (h : ws ≠ []) :
    (saveSessionTrace none nid today ws orig).countP (fun op => isCreateSession op) = 1
    ∧ ((saveSessionTrace none nid today ws orig).filterMap asCreateLog).length = ws.length
    ∧ (saveSessionTrace none nid today ws orig).length = ws.length + 1
    ∧ (∀ (k : Nat) (it : SelectedItem), ws.get? k = some it →
        ((saveSessionTrace none nid today ws orig).filterMap asCreateLog).get? k
          = some { name := it.item.name, itemId := it.item.id, sessionId := nid,
                   plannedTime := it.plannedMinutes, order := k }) := by
  rw [saveSessionTrace_none nid today ws orig h]
  refine ⟨?_, ?_, ?_, ?_⟩
  · rw [List.countP_cons, countP_isCreateSession_createLogsAux nid ws 0]
    simp [isCreateSession]
  · rw [List.filterMap_cons]
    simp only [asCreateLog]
    exact length_filterMap_createLogsAux nid ws 0
  · simp [length_createLogsAux]
  · intro k it hk
    rw [List.filterMap_cons]
    simp only [asCreateLog]
    have := get?_filterMap_createLogsAux nid ws 0 k it hk
    simpa using this

/-- C2 witness: saving a brand-new session with the two-entry working set
`[itemA 5m, itemB 7m]` issues exactly the session creation and two log
creations with orders 0 and 1. -/
theorem c2_witness :
    (saveSessionTrace none "new-session" "2026-10-12" [{ item := itemA, plannedMinutes := 5 }, { item := itemB, plannedMinutes := 7 }] []).countP (fun op => isCreateSession op) = 1
    ∧ ((saveSessionTrace none "new-session" "2026-10-12" [{ item := itemA, plannedMinutes := 5 }, { item := itemB, plannedMinutes := 7 }] []).filterMap asCreateLog).get? 1
        = some { name := itemB.name, itemId := itemB.id, sessionId := "new-session",
                 plannedTime := 7, order := 1 } := by
  have h := c2_create_mode "new-session" "2026-10-12"
    [{ item := itemA, plannedMinutes := 5 }, { item := itemB, plannedMinutes := 7 }] []
    (by decide)
  exact ⟨h.1, h.2.2.2 1 { item := itemB, plannedMinutes := 7 } (by decide)⟩

/-! ## C4: loading session logs -/

theorem loadItems_eq_map_filter (logs : List PracticeLog) (library : List PracticeLibraryItem) :
    loadItems logs library
      = (logs.filter (fun log => (library.find? (fun it => it.id == log.itemId)).isSome)).map
          (fun log =>
            { item := (library.find? (fun it => it.id == log.itemId)).getD default
              plannedMinutes := jsOrDefault log.plannedTime 5
              actualMinutes := log.actualTime
              logId := some log.id }) := by
  induction logs with
  | nil => rfl
  | cons log rest ih =>
    cases hf : library.find? (fun it => it.id == log.itemId) with
    | none =>
      rw [loadItems, List.filterMap_cons] at *
      simp only [hf, Option.map_none']
      rw [List.filter_cons, if_neg (by simp [hf])]
      exact ih
    | some li =>
      rw [loadItems, List.filterMap_cons] at *
      simp only [hf, Option.map_some']
      rw [List.filter_cons, if_pos (by simp [hf]), List.map_cons]
      rw [ih]
      simp [hf]

theorem loadItems_logId (logs : List PracticeLog) (library : List PracticeLibraryItem) :
    ∀ si ∈ loadItems logs library, ∃ log ∈ logs,
      si.logId = some log.id ∧ (library.find? (fun it => it.id == log.itemId)).isSome = true := by
  intro si hsi
  rw [loadItems] at hsi
  obtain ⟨log, hlog, hmap⟩ := List.mem_filterMap.mp hsi
  cases hf : library.find? (fun it => it.id == log.itemId) with
  | none => rw [hf] at hmap; simp at hmap
  | some li =>
    rw [hf] at hmap
    simp only [Option.map_some', Option.some_inj] at hmap
    refine ⟨log, hlog, ?_, by simp [hf]⟩
    rw [← hmap]

/-- C4: `loadSessionLogs` builds one `SelectedItem` per fetched log record
whose catalog item resolves in the library, in the fetched order (the
map-over-filter characterization), silently dropping unresolvable records
(no entry references a dropped record, and the function has no error
outcome); it replaces the working set with that list, replaces the baseline
with a deep copy of the same list (equal to it, and computed from the fetch
alone — the `∀ s` quantification shows no dependence on, hence no merge
with, the previous baseline), and resets the cursor. -/
theorem c4_loadSessionLogs (logs : List PracticeLog) (library : List PracticeLibraryItem)
    (s : EditorState) (hnd : (logs.map (fun log => log.id)).Nodup) :
    (loadSessionLogsState logs library s).selectedItems
      = (logs.filter (fun log => (library.find? (fun it => it.id == log.itemId)).isSome)).map
          (fun log =>
            { item := (library.find? (fun it => it.id == log.itemId)).getD default
              plannedMinutes := jsOrDefault log.plannedTime 5
              actualMinutes := log.actualTime
              logId := some log.id })
    ∧ (loadSessionLogsState logs library s).originalItems
        = (loadSessionLogsState logs library s).selectedItems
    ∧ (loadSessionLogsState logs library s).selectedPanelIndex = 0
    ∧ (∀ log ∈ logs, library.find? (fun it => it.id == log.itemId) = none →
        ∀ si ∈ (loadSessionLogsState logs library s).selectedItems, si.logId ≠ some log.id) := by
  refine ⟨?_, rfl, rfl, ?_⟩
  · show loadItems logs library = _
    exact loadItems_eq_map_filter logs library
  · intro log hlog hnone si hsi heq
    obtain ⟨log2, hlog2, hid2, hsome2⟩ := loadItems_logId logs library si hsi
    rw [hid2] at heq
    have hids : log2.id = log.id := Option.some.inj heq
    have hinj := List.inj_on_of_nodup_map hnd
    have hlogs : log2 = log := hinj hlog2 hlog hids
    rw [hlogs, hnone] at hsome2
    simp at hsome2

/-- C4 witness: loading three fetched logs — one referencing itemA, one
dangling (item "ghost" not in the library), one referencing itemB with a
null planned time — against the library `[itemA, itemB]` yields exactly the
two resolvable entries in fetched order (the dangling record dropped, the
null planned time defaulted to 5), with the baseline equal to the fresh
working set. -/
theorem c4_witness :
    (loadSessionLogsState [{ id := "l1", name := "n1", itemId := "item-a", sessionId := "s", plannedTime := some 10 }, { id := "lx", name := "nx", itemId := "ghost", sessionId := "s" }, { id := "l2", name := "n2", itemId := "item-b", sessionId := "s" }] [itemA, itemB] {}).selectedItems = [{ item := itemA, plannedMinutes := 10, logId := some "l1" }, { item := itemB, plannedMinutes := 5, logId := some "l2" }]
    ∧ (loadSessionLogsState [{ id := "l1", name := "n1", itemId := "item-a", sessionId := "s", plannedTime := some 10 }, { id := "lx", name := "nx", itemId := "ghost", sessionId := "s" }, { id := "l2", name := "n2", itemId := "item-b", sessionId := "s" }] [itemA, itemB] {}).originalItems = (loadSessionLogsState [{ id := "l1", name := "n1", itemId := "item-a", sessionId := "s", plannedTime := some 10 }, { id := "lx", name := "nx", itemId := "ghost", sessionId := "s" }, { id := "l2", name := "n2", itemId := "item-b", sessionId := "s" }] [itemA, itemB] {}).selectedItems := by
  have h := c4_loadSessionLogs [{ id := "l1", name := "n1", itemId := "item-a", sessionId := "s", plannedTime := some 10 }, { id := "lx", name := "nx", itemId := "ghost", sessionId := "s" }, { id := "l2", name := "n2", itemId := "item-b", sessionId := "s" }] [itemA, itemB] {} (by decide)
  exact ⟨h.1.trans (by decide), h.2.1⟩

/-! ## C3: removals -/

theorem saveSessionTrace_some (sid nid today : String) (ws orig : List SelectedItem) :
    saveSessionTrace (some sid) nid today ws orig = editSaveTrace sid ws orig := by
  rw [saveSessionTrace, if_neg (by simp)]

theorem deleteOps_shape (ws orig : List SelectedItem) :
    ∀ op ∈ deleteOps ws orig, ∃ lid, op = StoreOp.deleteLog lid
      ∧ lid ∈ orig.filterMap (fun x => x.logId) ∧ lid ∉ currentLogIds ws := by
  intro op hop
  obtain ⟨o, ho, hval⟩ := List.mem_filterMap.mp hop
  cases hlog : o.logId with
  | none => simp only [hlog] at hval; exact absurd hval (by simp)
  | some lid =>
    simp only [hlog] at hval
    by_cases hmem : lid ∈ currentLogIds ws
    · rw [if_pos hmem] at hval
      simp at hval
    · rw [if_neg hmem] at hval
      simp only [Option.some_inj] at hval
      exact ⟨lid, hval.symm, List.mem_filterMap.mpr ⟨o, ho, hlog⟩, hmem⟩

theorem upsertOp_shape (sid : String) (orig : List SelectedItem) (i : Nat) (x : SelectedItem) :
    ∀ op ∈ upsertOp sid orig i x,
      (∃ lid u, x.logId = some lid ∧ op = StoreOp.updateLog lid u)
      ∨ (x.logId = none ∧ op = StoreOp.createLog
          { name := x.item.name, itemId := x.item.id, sessionId := sid,
            plannedTime := x.plannedMinutes, order := i }) := by
  intro op hop
  cases hlog : x.logId with
  | none =>
    simp only [upsertOp, hlog, List.mem_singleton] at hop
    exact Or.inr ⟨rfl, hop⟩
  | some lid =>
    simp only [upsertOp, hlog] at hop
    by_cases hc : ((match
        (if jsFindIndex (fun o => o.logId == some lid) orig < 0 then none
         else orig.get? (jsFindIndex (fun o => o.logId == some lid) orig).toNat : Option SelectedItem) with
      | some o => o.plannedMinutes != x.plannedMinutes
      | none => false)
      || (jsFindIndex (fun o => o.logId == some lid) orig != (i : Int))) = true
    · rw [if_pos hc] at hop
      simp only [List.mem_singleton] at hop
      exact Or.inl ⟨lid, _, rfl, hop⟩
    · rw [if_neg hc] at hop
      simp at hop

theorem mem_upsertOpsAux (sid : String) (orig : List SelectedItem) :
    ∀ (l : List SelectedItem) (n : Nat) (op : StoreOp),
      op ∈ upsertOpsAux sid orig n l ↔
        ∃ (k : Nat) (x : SelectedItem), l.get? k = some x ∧ op ∈ upsertOp sid orig (n + k) x := by
  intro l
  induction l with
  | nil =>
    intro n op
    simp [upsertOpsAux]
  | cons x rest ih =>
    intro n op
    rw [upsertOpsAux, List.mem_append]
    constructor
    · rintro (h | h)
      · exact ⟨0, x, rfl, by simpa using h⟩
      · obtain ⟨k, y, hget, hop⟩ := (ih (n + 1) op).mp h
        exact ⟨k + 1, y, by simpa using hget, by rwa [show n + 1 + k = n + (k + 1) by omega] at hop⟩
    · rintro ⟨k, y, hget, hop⟩
      cases k with
      | zero =>
        simp only [List.get?] at hget
        cases hget
        exact Or.inl (by simpa using hop)
      | succ kk =>
        simp only [List.get?] at hget
        refine Or.inr ((ih (n + 1) op).mpr ⟨kk, y, hget, ?_⟩)
        rwa [show n + (kk + 1) = n + 1 + kk by omega] at hop

theorem countP_isDeleteFor_upsertOpsAux (sid : String) (orig : List SelectedItem) (lid : String)
    (l : List SelectedItem) (n : Nat) :
    (upsertOpsAux sid orig n l).countP (fun op => isDeleteFor lid op) = 0 := by
  rw [List.countP_eq_zero]
  intro op hop
  obtain ⟨k, x, _, hmem⟩ := (mem_upsertOpsAux sid orig l n op).mp hop
  rcases upsertOp_shape sid orig (n + k) x op hmem with ⟨l2, u, _, h⟩ | ⟨_, h⟩ <;>
    simp [h, isDeleteFor]

theorem countP_isDeleteFor_deleteOps_zero (ws orig : List SelectedItem) (lid : String)
    (h : lid ∉ orig.filterMap (fun x => x.logId)) :
    (deleteOps ws orig).countP (fun op => isDeleteFor lid op) = 0 := by
  rw [List.countP_eq_zero]
  intro op hop
  obtain ⟨l2, hop2, hmem, _⟩ := deleteOps_shape ws orig op hop
  have hne : l2 ≠ lid := by
    intro heq
    rw [heq] at hmem
    exact h hmem
  rw [hop2]
  simp [isDeleteFor, hne]

theorem countP_isDeleteFor_deleteOps (ws : List SelectedItem) (lid : String) :
    ∀ (orig : List SelectedItem), (orig.filterMap (fun x => x.logId)).Nodup →
      (∃ o ∈ orig, o.logId = some lid) → lid ∉ currentLogIds ws →
      (deleteOps ws orig).countP (fun op => isDeleteFor lid op) = 1 := by
  intro orig
  induction orig with
  | nil => rintro _ ⟨o, ho, _⟩ _; simp at ho
  | cons x rest ih =>
    rintro hnd ⟨o, ho, hol⟩ hws
    cases hx : x.logId with
    | none =>
      have hcons : deleteOps ws (x :: rest) = deleteOps ws rest := by
        rw [deleteOps, List.filterMap_cons]
        simp only [hx]
        rfl
      have hnd2 : (rest.filterMap (fun y => y.logId)).Nodup := by
        rw [List.filterMap_cons] at hnd
        simpa [hx] using hnd
      have ho2 : o ∈ rest := by
        rcases List.mem_cons.mp ho with h1 | h2
        · rw [h1] at hol; rw [hol] at hx; exact absurd hx (by simp)
        · exact h2
      rw [hcons]
      exact ih hnd2 ⟨o, ho2, hol⟩ hws
    | some l2 =>
      have hfm : (x :: rest).filterMap (fun y => y.logId) = l2 :: rest.filterMap (fun y => y.logId) := by
        rw [List.filterMap_cons]
        simp [hx]
      rw [hfm] at hnd
      have hnd2 : (rest.filterMap (fun y => y.logId)).Nodup := (List.nodup_cons.mp hnd).2
      have hl2notin : l2 ∉ rest.filterMap (fun y => y.logId) := (List.nodup_cons.mp hnd).1
      by_cases heq : l2 = lid
      · subst heq
        have hcons : deleteOps ws (x :: rest) =
            StoreOp.deleteLog l2 :: deleteOps ws rest := by
          rw [deleteOps, List.filterMap_cons]
          simp only [hx]
          rw [if_neg hws]
          rfl
        rw [hcons, List.countP_cons]
        rw [countP_isDeleteFor_deleteOps_zero ws rest l2 hl2notin]
        simp [isDeleteFor]
      · have hrec : (deleteOps ws rest).countP (fun op => isDeleteFor lid op) = 1 := by
          have ho2 : o ∈ rest := by
            rcases List.mem_cons.mp ho with h1 | h2
            · rw [h1] at hol; rw [hol] at hx
              exact absurd (Option.some.inj hx) (fun hh => heq hh.symm)
            · exact h2
          exact ih hnd2 ⟨o, ho2, hol⟩ hws
        by_cases hmem : l2 ∈ currentLogIds ws
        · have hcons : deleteOps ws (x :: rest) = deleteOps ws rest := by
            rw [deleteOps, List.filterMap_cons]
            simp only [hx]
            rw [if_pos hmem]
            rfl
          rw [hcons]
          exact hrec
        · have hcons : deleteOps ws (x :: rest) =
              StoreOp.deleteLog l2 :: deleteOps ws rest := by
            rw [deleteOps, List.filterMap_cons]
            simp only [hx]
            rw [if_neg hmem]
            rfl
          rw [hcons, List.countP_cons, hrec]
          simp [isDeleteFor, heq]

theorem mem_removeItemItems (index : Nat) (ws : List SelectedItem) (x : SelectedItem)
    (hx : x ∈ removeItemItems index ws) : ∃ m, m ≠ index ∧ ws.get? m = some x := by
  have main : ∀ (l : List SelectedItem) (i : Nat), x ∈ removeItemItems.go index i l →
      ∃ j, i + j ≠ index ∧ l.get? j = some x := by
    intro l
    induction l with
    | nil => intro i h; simp [removeItemItems.go] at h
    | cons y rest ih =>
      intro i h
      rw [removeItemItems.go] at h
      by_cases hik : i = index
      · rw [if_pos hik] at h
        obtain ⟨j, hj, hget⟩ := ih (i + 1) h
        exact ⟨j + 1, by omega, by simpa using hget⟩
      · rw [if_neg hik] at h
        rcases List.mem_cons.mp h with h1 | h2
        · exact ⟨0, by omega, by simp [h1]⟩
        · obtain ⟨j, hj, hget⟩ := ih (i + 1) h2
          exact ⟨j + 1, by omega, by simpa using hget⟩
  obtain ⟨j, hj, hget⟩ := main ws 0 (by simpa [removeItemItems] using hx)
  exact ⟨j, by omega, hget⟩

/-- C3: on a save over an active session, every baseline entry whose
persisted-log reference no longer occurs among the working set's references
produces exactly one delete call; and after removing a working-set entry
that has no persisted-log reference (and whose catalog item occurs at no
other position), the save trace contains no call referencing that entry at
all — no delete, no update, no create. -/
theorem c3_removal :
    (∀ (sid nid today : String) (ws orig : List SelectedItem) (o : SelectedItem) (lid : String),
      o ∈ orig → o.logId = some lid → lid ∉ currentLogIds ws →
      (orig.filterMap (fun x => x.logId)).Nodup →
      (saveSessionTrace (some sid) nid today ws orig).countP (fun op => isDeleteFor lid op) = 1)
    ∧ (∀ (sid nid today : String) (ws orig : List SelectedItem) (k : Nat) (e : SelectedItem),
      ws.get? k = some e → e.logId = none →
      (∀ m x, m ≠ k → ws.get? m = some x → x.item.id ≠ e.item.id) →
      (saveSessionTrace (some sid) nid today (removeItemItems k ws) orig).countP
        (fun op => callsFor e op) = 0) := by
  constructor
  · intro sid nid today ws orig o lid ho hol hws hnd
    rw [saveSessionTrace_some, editSaveTrace, List.countP_append]
    rw [countP_isDeleteFor_deleteOps ws lid orig hnd ⟨o, ho, hol⟩ hws]
    rw [countP_isDeleteFor_upsertOpsAux]
  · intro sid nid today ws orig k e hk he hother
    rw [saveSessionTrace_some, editSaveTrace, List.countP_eq_zero]
    intro op hop
    rcases List.mem_append.mp hop with hdel | hup
    · obtain ⟨lid, hop2, _, _⟩ := deleteOps_shape _ orig op hdel
      rw [hop2]
      simp [callsFor, he]
    · obtain ⟨j, x, hget, hmem⟩ := (mem_upsertOpsAux sid orig _ 0 op).mp hup
      rcases upsertOp_shape sid orig (0 + j) x op hmem with ⟨l2, u, _, hop2⟩ | ⟨_, hop2⟩
      · rw [hop2]
        simp [callsFor, he]
      · rw [hop2]
        simp only [callsFor, beq_eq_false_iff_ne, ne_eq]
        have hxmem : x ∈ removeItemItems k ws := List.get?_mem hget
        obtain ⟨m, hm, hgm⟩ := mem_removeItemItems k ws x hxmem
        simpa using hother m x hm hgm

/-- C3 witness: with baseline `[itemA log "l1", itemB log "l2"]` and working
set `[itemA log "l1"]` (itemB removed), the save issues exactly one delete
of "l2"; and removing the never-persisted itemB entry from the working set
`[itemA log "l1", itemB (no log)]` yields a save trace with zero calls for
that entry. -/
theorem c3_witness :
    (saveSessionTrace (some "s") "n" "d" [{ item := itemA, plannedMinutes := 5, logId := some "l1" }] [{ item := itemA, plannedMinutes := 5, logId := some "l1" }, { item := itemB, plannedMinutes := 7, logId := some "l2" }]).countP (fun op => isDeleteFor "l2" op) = 1
    ∧ (saveSessionTrace (some "s") "n" "d" (removeItemItems 1 [{ item := itemA, plannedMinutes := 5, logId := some "l1" }, { item := itemB, plannedMinutes := 7 }]) [{ item := itemA, plannedMinutes := 5, logId := some "l1" }]).countP (fun op => callsFor { item := itemB, plannedMinutes := 7 } op) = 0 := by
  constructor
  · exact c3_removal.1 "s" "n" "d" _ _
      { item := itemB, plannedMinutes := 7, logId := some "l2" } "l2"
      (by simp) rfl (by decide) (by decide)
  · refine c3_removal.2 "s" "n" "d"
      [{ item := itemA, plannedMinutes := 5, logId := some "l1" }, { item := itemB, plannedMinutes := 7 }]
      [{ item := itemA, plannedMinutes := 5, logId := some "l1" }] 1
      { item := itemB, plannedMinutes := 7 } (by rfl) rfl ?_
    intro m x hm hgm
    match m with
    | 0 =>
      simp only [List.get?] at hgm
      have hx := Option.some.inj hgm
      rw [← hx]
      decide
    | 1 => exact absurd rfl hm
    | (mm + 2) => simp [List.get?] at hgm

/-! ## C1: minimal-diff updates and idempotence -/

theorem jsFindIndex_nil {α : Type} (p : α → Bool) : jsFindIndex p [] = -1 := rfl

theorem jsFindIndex_cons {α : Type} (p : α → Bool) (x : α) (rest : List α) :
    jsFindIndex p (x :: rest)
      = if p x then 0 else (if jsFindIndex p rest < 0 then -1 else jsFindIndex p rest + 1) := rfl

/-- In a list whose present `logId`s are distinct, `findIndex` on a `logId`
that occurs at position `j` returns exactly `j`. -/
theorem jsFindIndex_logId_eq (lid : String) :
    ∀ (l : List SelectedItem) (j : Nat) (ob : SelectedItem),
      (l.filterMap (fun x => x.logId)).Nodup → l.get? j = some ob → ob.logId = some lid →
      jsFindIndex (fun o => o.logId == some lid) l = (j : Int) := by
  intro l
  induction l with
  | nil => intro j ob _ h _; simp at h
  | cons x rest ih =>
    intro j ob hnd hget hob
    cases j with
    | zero =>
      simp only [List.get?] at hget
      have hx := Option.some.inj hget
      rw [jsFindIndex_cons, if_pos (by rw [hx]; simp [hob])]
      rfl
    | succ jj =>
      simp only [List.get?] at hget
      have hobmem : ob ∈ rest := List.get?_mem hget
      have hlidmem : lid ∈ rest.filterMap (fun y => y.logId) :=
        List.mem_filterMap.mpr ⟨ob, hobmem, hob⟩
      have hpx : (x.logId == some lid) = false := by
        cases hxl : x.logId with
        | none => rfl
        | some l2 =>
          by_cases hl2 : l2 = lid
          · exfalso
            subst hl2
            rw [List.filterMap_cons] at hnd
            simp only [hxl] at hnd
            exact (List.nodup_cons.mp hnd).1 hlidmem
          · simp [hl2]
      have hndrest : (rest.filterMap (fun y => y.logId)).Nodup := by
        rw [List.filterMap_cons] at hnd
        cases hxl : x.logId with
        | none => simpa [hxl] using hnd
        | some l2 =>
          simp only [hxl] at hnd
          exact (List.nodup_cons.mp hnd).2
      have hr := ih jj ob hndrest hget hob
      rw [jsFindIndex_cons, if_neg (by simp [hpx]), hr, if_neg (by omega)]
      push_cast
      ring

/-- In a working set whose present `logId`s are distinct, a `logId` occurs
at one position only. -/
theorem logId_position_unique (ws : List SelectedItem) (lid : String) (i k : Nat)
    (it x : SelectedItem) (hnd : (ws.filterMap (fun y => y.logId)).Nodup)
    (hi : ws.get? i = some it) (hit : it.logId = some lid)
    (hk : ws.get? k = some x) (hx : x.logId = some lid) : k = i ∧ x = it := by
  have h1 := jsFindIndex_logId_eq lid ws i it hnd hi hit
  have h2 := jsFindIndex_logId_eq lid ws k x hnd hk hx
  have hik : k = i := by omega
  subst hik
  rw [hi] at hk
  exact ⟨rfl, (Option.some.inj hk).symm⟩

/-- Evaluation of one update/create loop iteration on an entry whose
baseline twin sits at position `j`. -/
theorem upsertOp_eval (sid : String) (orig : List SelectedItem) (i j : Nat)
    (it ob : SelectedItem) (lid : String)
    (hnd : (orig.filterMap (fun x => x.logId)).Nodup)
    (hit : it.logId = some lid) (hj : orig.get? j = some ob) (hob : ob.logId = some lid) :
    upsertOp sid orig i it =
      if (ob.plannedMinutes != it.plannedMinutes) || ((j : Int) != (i : Int)) then
        [StoreOp.updateLog lid
          { plannedTime := if ob.plannedMinutes != it.plannedMinutes
              then some it.plannedMinutes else none
            order := if (j : Int) != (i : Int) then some i else none }]
      else [] := by
  have hfind := jsFindIndex_logId_eq lid orig j ob hnd hj hob
  simp only [upsertOp, hit]
  rw [hfind, if_neg (show ¬((j : Int) < 0) by omega),
    show ((j : Int)).toNat = j from by omega, hj]

theorem deleteOps_of_subset (ws : List SelectedItem) :
    ∀ (l : List SelectedItem), (∀ o ∈ l, o ∈ ws) → deleteOps ws l = [] := by
  intro l
  induction l with
  | nil => intro _; rfl
  | cons x rest ih =>
    intro h
    cases hx : x.logId with
    | none =>
      have : deleteOps ws (x :: rest) = deleteOps ws rest := by
        rw [deleteOps, List.filterMap_cons]
        simp only [hx]
        rfl
      rw [this]
      exact ih (fun o ho => h o (List.mem_cons_of_mem _ ho))
    | some lid =>
      have hmem : lid ∈ currentLogIds ws :=
        List.mem_filterMap.mpr ⟨x, h x (List.mem_cons_self _ _), hx⟩
      have : deleteOps ws (x :: rest) = deleteOps ws rest := by
        rw [deleteOps, List.filterMap_cons]
        simp only [hx]
        rw [if_pos hmem]
        rfl
      rw [this]
      exact ih (fun o ho => h o (List.mem_cons_of_mem _ ho))

theorem deleteOps_self (xs : List SelectedItem) : deleteOps xs xs = [] :=
  deleteOps_of_subset xs xs (fun _ h => h)

theorem upsertOpsAux_eq_nil (sid : String) (orig : List SelectedItem) :
    ∀ (l : List SelectedItem) (n : Nat),
      (∀ (k : Nat) (x : SelectedItem), l.get? k = some x → upsertOp sid orig (n + k) x = []) →
      upsertOpsAux sid orig n l = [] := by
  intro l
  induction l with
  | nil => intro n _; rfl
  | cons x rest ih =>
    intro n h
    rw [upsertOpsAux]
    have h0 : upsertOp sid orig n x = [] := by
      have := h 0 x rfl
      simpa using this
    rw [h0, List.nil_append]
    apply ih (n + 1)
    intro k y hk
    have := h (k + 1) y (by simpa using hk)
    rwa [show n + (k + 1) = n + 1 + k by omega] at this

theorem upsertOp_self (sid : String) (xs : List SelectedItem)
    (hnd : (xs.filterMap (fun x => x.logId)).Nodup) (i : Nat) (it : SelectedItem)
    (hi : xs.get? i = some it) (hsome : it.logId.isSome = true) :
    upsertOp sid xs i it = [] := by
  obtain ⟨lid, hlid⟩ := Option.isSome_iff_exists.mp hsome
  rw [upsertOp_eval sid xs i i it it lid hnd hlid hi hlid, if_neg (by simp)]

theorem editSaveTrace_self (sid : String) (xs : List SelectedItem)
    (hall : ∀ o ∈ xs, o.logId.isSome = true)
    (hnd : (xs.filterMap (fun x => x.logId)).Nodup) :
    editSaveTrace sid xs xs = [] := by
  rw [editSaveTrace, deleteOps_self, List.nil_append]
  apply upsertOpsAux_eq_nil
  intro k x hk
  simp only [Nat.zero_add]
  exact upsertOp_self sid xs hnd k x hk (hall x (List.get?_mem hk))

theorem loadItems_all_logId_isSome (logs : List PracticeLog)
    (library : List PracticeLibraryItem) :
    ∀ si ∈ loadItems logs library, si.logId.isSome = true := by
  intro si hsi
  obtain ⟨log, _, heq, _⟩ := loadItems_logId logs library si hsi
  rw [heq]
  rfl

theorem loadItems_filterMap_logId (logs : List PracticeLog)
    (library : List PracticeLibraryItem) :
    (loadItems logs library).filterMap (fun x => x.logId)
      = (logs.filter (fun log => (library.find? (fun it => it.id == log.itemId)).isSome)).map
          (fun log => log.id) := by
  induction logs with
  | nil => rfl
  | cons log rest ih =>
    cases hf : library.find? (fun it => it.id == log.itemId) with
    | none =>
      rw [loadItems, List.filterMap_cons] at *
      simp only [hf, Option.map_none']
      rw [List.filter_cons, if_neg (by simp [hf])]
      exact ih
    | some li =>
      rw [loadItems, List.filterMap_cons] at *
      simp only [hf, Option.map_some']
      rw [List.filter_cons, if_pos (by simp [hf]), List.map_cons, List.filterMap_cons]
      simp only []
      rw [ih]

theorem loadItems_logIds_nodup (logs : List PracticeLog)
    (library : List PracticeLibraryItem) (hnd : (logs.map (fun log => log.id)).Nodup) :
    ((loadItems logs library).filterMap (fun x => x.logId)).Nodup := by
  rw [loadItems_filterMap_logId]
  exact List.Nodup.sublist (List.Sublist.map _ (List.filter_sublist logs)) hnd

/-- C1: for a save over an active session, a working-set entry carrying a
persisted-log reference receives an update call if and only if its planned
duration differs from the baseline entry with the same reference or its
position differs from that entry's baseline position (log references assumed
distinct on each side, as every load produces); consequently, re-saving the
state produced by a reload — working set and baseline both equal to the
freshly loaded list — issues no store call at all. -/
theorem c1_minimal_diff :
    (∀ (sid nid today : String) (ws orig : List SelectedItem) (i j : Nat)
        (it ob : SelectedItem) (lid : String),
      ws.get? i = some it → it.logId = some lid →
      (ws.filterMap (fun x => x.logId)).Nodup →
      (orig.filterMap (fun x => x.logId)).Nodup →
      orig.get? j = some ob → ob.logId = some lid →
      ((∃ u, StoreOp.updateLog lid u ∈ saveSessionTrace (some sid) nid today ws orig)
        ↔ (ob.plannedMinutes ≠ it.plannedMinutes ∨ i ≠ j)))
    ∧ (∀ (sid nid today : String) (logs : List PracticeLog)
        (library : List PracticeLibraryItem),
      (logs.map (fun log => log.id)).Nodup →
      saveSessionTrace (some sid) nid today (loadItems logs library) (loadItems logs library)
        = []) := by
  constructor
  · intro sid nid today ws orig i j it ob lid hi hit hndw hndo hj hob
    rw [saveSessionTrace_some]
    constructor
    · rintro ⟨u, hu⟩
      rw [editSaveTrace] at hu
      rcases List.mem_append.mp hu with hdel | hup
      · obtain ⟨l2, heq, _, _⟩ := deleteOps_shape ws orig _ hdel
        exact absurd heq (by simp)
      · obtain ⟨k, x, hk, hmem⟩ := (mem_upsertOpsAux sid orig ws 0 _).mp hup
        simp only [Nat.zero_add] at hmem
        rcases upsertOp_shape sid orig k x _ hmem with ⟨l2, u2, hxl, hop2⟩ | ⟨_, hop2⟩
        · have hl2 : l2 = lid ∧ u2 = u := by
            have := hop2
            simp only [StoreOp.updateLog.injEq] at this
            exact ⟨this.1.symm, this.2.symm⟩
          rw [hl2.1] at hxl
          obtain ⟨hki, hxit⟩ := logId_position_unique ws lid i k it x hndw hi hit hk hxl
          subst hki
          subst hxit
          rw [upsertOp_eval sid orig k j x ob lid hndo hit hj hob] at hmem
          by_cases hcond :
              ((ob.plannedMinutes != x.plannedMinutes) || ((j : Int) != (k : Int))) = true
          · have hcond2 : ob.plannedMinutes ≠ x.plannedMinutes ∨ (j : Int) ≠ (k : Int) := by
              simpa [bne_iff_ne] using hcond
            rcases hcond2 with hb | hb
            · exact Or.inl hb
            · refine Or.inr ?_
              intro hij
              exact hb (by rw [hij])
          · rw [if_neg hcond] at hmem
            simp at hmem
        · exact absurd hop2 (by simp)
    · intro hcond
      have hbool :
          ((ob.plannedMinutes != it.plannedMinutes) || ((j : Int) != (i : Int))) = true := by
        rcases hcond with h | h
        · simp [bne_iff_ne, h]
        · have hji : (j : Int) ≠ (i : Int) := by
            intro hh
            exact h (by exact_mod_cast hh.symm)
          simp [bne_iff_ne, hji]
      refine ⟨{ plannedTime := if ob.plannedMinutes != it.plannedMinutes
                  then some it.plannedMinutes else none
                order := if (j : Int) != (i : Int) then some i else none }, ?_⟩
      rw [editSaveTrace]
      apply List.mem_append.mpr
      right
      apply (mem_upsertOpsAux sid orig ws 0 _).mpr
      refine ⟨i, it, hi, ?_⟩
      simp only [Nat.zero_add]
      rw [upsertOp_eval sid orig i j it ob lid hndo hit hj hob, if_pos hbool]
      simp
  · intro sid nid today logs library hnd
    rw [saveSessionTrace_some]
    exact editSaveTrace_self sid (loadItems logs library)
      (loadItems_all_logId_isSome logs library) (loadItems_logIds_nodup logs library hnd)

/-- C1 witness: with baseline `[itemA 5m log "l1"]` and working set
`[itemA 10m log "l1"]` (planned duration edited), the save contains an
update of "l1"; and re-saving the state obtained by loading one log issues
no call. -/
theorem c1_witness :
    (∃ u, StoreOp.updateLog "l1" u ∈ saveSessionTrace (some "s") "n" "d" [{ item := itemA, plannedMinutes := 10, logId := some "l1" }] [{ item := itemA, plannedMinutes := 5, logId := some "l1" }])
    ∧ saveSessionTrace (some "s") "n" "d" (loadItems [{ id := "l1", name := "n1", itemId := "item-a", sessionId := "s", plannedTime := some 10 }] [itemA]) (loadItems [{ id := "l1", name := "n1", itemId := "item-a", sessionId := "s", plannedTime := some 10 }] [itemA]) = [] := by
  constructor
  · exact (c1_minimal_diff.1 "s" "n" "d"
      [{ item := itemA, plannedMinutes := 10, logId := some "l1" }]
      [{ item := itemA, plannedMinutes := 5, logId := some "l1" }] 0 0
      { item := itemA, plannedMinutes := 10, logId := some "l1" }
      { item := itemA, plannedMinutes := 5, logId := some "l1" } "l1"
      rfl rfl (by decide) (by decide) rfl rfl).mpr (Or.inl (by decide))
  · exact c1_minimal_diff.2 "s" "n" "d"
      [{ id := "l1", name := "n1", itemId := "item-a", sessionId := "s", plannedTime := some 10 }]
      [itemA] (by decide)

/-! ## C5: timer pause/resume accounting -/

/-- C5: starting a timer on an item with no prior actual duration and then
pausing at `t1`, resuming at `t2` and pausing again at `t3` leaves an
accumulated duration of exactly `(t1 - t0) + (t3 - t2)` — the wall-clock
lengths of the two running segments, derived purely from the timestamps
handed to the four state transitions (display ticks do not touch
`PracticeState`); and in general `togglePausePractice` from running adds
`now - startTime` to the accumulated duration and pauses, while from paused
it restamps `startTime := now` and resumes. -/
theorem c5_timer :
    (∀ (items : List SelectedItem) (idx : Nat) (it : SelectedItem) (t0 t1 t2 t3 : Int),
      items.get? idx = some it → it.actualMinutes = none →
      togglePausePractice t3 (togglePausePractice t2 (togglePausePractice t1
          (some (startPractice items idx t0))))
        = some { itemIndex := idx, startTime := t2,
                 accumulatedMs := ((t1 - t0 : Int) : ℚ) + ((t3 - t2 : Int) : ℚ),
                 isPaused := true, isConfirming := false })
    ∧ (∀ (ps : PracticeState) (now : Int), ps.isPaused = false →
        togglePausePractice now (some ps)
          = some { ps with accumulatedMs := ps.accumulatedMs + ((now - ps.startTime : Int) : ℚ),
                           isPaused := true })
    ∧ (∀ (ps : PracticeState) (now : Int), ps.isPaused = true →
        togglePausePractice now (some ps) = some { ps with startTime := now, isPaused := false }) := by
  refine ⟨?_, ?_, ?_⟩
  · intro items idx it t0 t1 t2 t3 hget hnone
    have hstart : startPractice items idx t0 =
        { itemIndex := idx, startTime := t0, accumulatedMs := 0,
          isPaused := false, isConfirming := false } := by
      have hget2 : items[idx]? = some it := by
        rw [← List.get?_eq_getElem?]
        exact hget
      simp [startPractice, hget2, hnone]
    rw [hstart]
    simp only [togglePausePractice]
    norm_num
  · intro ps now h
    simp [togglePausePractice, h]
  · intro ps now h
    simp [togglePausePractice, h]

/-- C5 witness: the pause/resume law at timestamps 0, 5, 10, 14 on a
one-item working set with no prior actual time: 5 + 4 = 9 ms accumulated. -/
theorem c5_witness :
    togglePausePractice 14 (togglePausePractice 10 (togglePausePractice 5
        (some (startPractice [{ item := itemA, plannedMinutes := 5 }] 0 0))))
      = some { itemIndex := 0, startTime := 10, accumulatedMs := 9,
               isPaused := true, isConfirming := false } := by
  have h := c5_timer.1 [{ item := itemA, plannedMinutes := 5 }] 0
    { item := itemA, plannedMinutes := 5 } 0 5 10 14 rfl rfl
  rw [h]
  norm_num

/-! ## C6: timer confirm -/

/-- C6: when the timed item carries a persisted-log reference,
`confirmSavePractice` issues exactly one update call writing
`accumulatedMs / 60000` decimal minutes as the actual time, reloads the
active session (there is one whenever the reference exists and a session is
active), and drops the timer session; when the timed item carries no
reference, the outcome is exactly that of `cancelPractice` — timer session
discarded, no store call, no reload. -/
theorem c6_confirm :
    (∀ (items : List SelectedItem) (sid : String) (ps : PracticeState) (it : SelectedItem)
        (lid : String),
      items.get? ps.itemIndex = some it → it.logId = some lid →
      confirmSavePractice items (some sid) (some ps)
        = { ops := [StoreOp.updateLog lid { actualTime := some (ps.accumulatedMs / 60000) }],
            practiceState := none, reloaded := true })
    ∧ (∀ (items : List SelectedItem) (asid : Option String) (ps : PracticeState)
        (it : SelectedItem),
      items.get? ps.itemIndex = some it → it.logId = none →
      confirmSavePractice items asid (some ps) = cancelPracticeResult) := by
  constructor
  · intro items sid ps it lid hget hlog
    have hget2 : items[ps.itemIndex]? = some it := by
      rw [← List.get?_eq_getElem?]
      exact hget
    simp [confirmSavePractice, hget2, hlog]
  · intro items asid ps it hget hlog
    have hget2 : items[ps.itemIndex]? = some it := by
      rw [← List.get?_eq_getElem?]
      exact hget
    simp [confirmSavePractice, hget2, hlog]

/-- C6 witness: confirming a 90-second practice (accumulated 90000 ms) of an
item persisted as log "l1" issues one update writing 1.5 actual minutes and
ends idle; confirming on an item with no log reference cancels without any
call. -/
theorem c6_witness :
    confirmSavePractice [{ item := itemA, plannedMinutes := 5, logId := some "l1" }] (some "s")
        (some { itemIndex := 0, startTime := 0, accumulatedMs := 90000,
                isPaused := true, isConfirming := true })
      = { ops := [StoreOp.updateLog "l1" { actualTime := some (3 / 2) }],
          practiceState := none, reloaded := true }
    ∧ confirmSavePractice [{ item := itemA, plannedMinutes := 5 }] (some "s")
        (some { itemIndex := 0, startTime := 0, accumulatedMs := 90000,
                isPaused := true, isConfirming := true })
      = cancelPracticeResult := by
  constructor
  · have h := c6_confirm.1 [{ item := itemA, plannedMinutes := 5, logId := some "l1" }] "s"
      { itemIndex := 0, startTime := 0, accumulatedMs := 90000,
        isPaused := true, isConfirming := true }
      { item := itemA, plannedMinutes := 5, logId := some "l1" } "l1" rfl rfl
    rw [h]
    norm_num
  · exact c6_confirm.2 [{ item := itemA, plannedMinutes := 5 }] (some "s")
      { itemIndex := 0, startTime := 0, accumulatedMs := 90000,
        isPaused := true, isConfirming := true }
      { item := itemA, plannedMinutes := 5 } rfl rfl
